import Mathlib

/-!
Verification of the keras_cv COCO metric base (`keras_cv/metrics/coco/base.py`)
and the CutMix preprocessing layer (`keras_cv/layers/preprocessing/cut_mix.py`).

Tensors of boxes are embedded as lists of `Box` records over `ℚ`; the
`[T, K]` counter tensors are embedded as functions `ℕ → ℕ → ℚ` whose valid
index ranges are the configured threshold and category counts.  The external
IoU provider (`iou_lib.compute_ious_for_image`) is abstracted as a parameter
giving the pairwise IoU of two boxes.
-/

/-- A bounding box in corners format together with its class id and
confidence, mirroring the `[x1, y1, x2, y2, class, confidence]` rows of the
bounding box tensors consumed by `COCOBase.update_state`. -/
structure Box where
  x1 : ℚ
  y1 : ℚ
  x2 : ℚ
  y2 : ℚ
  cls : ℚ
  conf : ℚ
deriving DecidableEq

/-- Default box used for out-of-range lookups in IoU tables (never reached
for in-range indices). -/
def default_box : Box := ⟨0, 0, 0, 0, 0, 0⟩

/-- A dense 2D table, row = ground-truth index, column = detection index. -/
abbrev Mat : Type := ℕ → ℕ → ℚ

/-- A 1D counter vector indexed by category position. -/
abbrev Vec : Type := ℕ → ℚ

/-- Inner loop body of `COCOBase._match_boxes` (`for gt_idx in
tf.range(num_true)`): skip ground-truths already matched, skip ground-truths
whose IoU with the current detection is below `threshold`, otherwise record
the ground-truth as the current candidate.  The first state component is the
local variable `iou` of the source, which is assigned but never read back
(the comparison uses the fixed `threshold` argument). -/
def match_scan (gt_matches : List ℤ) (num_true : ℕ) (threshold : ℚ)
    (ious : Mat) (detection_idx : ℕ) : ℚ × ℤ :=
  (List.range num_true).foldl
    (fun st gt_idx =>
      if gt_matches.getD gt_idx (-1) > -1 then st
      else if ¬ ious gt_idx detection_idx ≥ threshold then st
      else (ious gt_idx detection_idx, (gt_idx : ℤ)))
    (min threshold (1 - 1 / 10000000000), -1)

/-- Body of the `for detection_idx in tf.range(num_pred)` loop of
`COCOBase._match_boxes`: scan the ground-truths, append the resulting match
index to `pred_matches` (the TensorArray slots are written in index order),
and mark the matched ground-truth as consumed. -/
def match_detection_step (num_true : ℕ) (threshold : ℚ) (ious : Mat)
    (st : List ℤ × List ℤ) (detection_idx : ℕ) : List ℤ × List ℤ :=
  let match_index := (match_scan st.1 num_true threshold ious detection_idx).2
  let pred_matches := st.2 ++ [match_index]
  if match_index = -1 then (st.1, pred_matches)
  else (st.1.set match_index.toNat (detection_idx : ℤ), pred_matches)

/-- `COCOBase._match_boxes`: greedily match detections (in order) to
ground-truths, returning for each detection its matched ground-truth index or
`-1`. -/
def match_boxes (num_true num_pred : ℕ) (threshold : ℚ) (ious : Mat) :
    List ℤ :=
  ((List.range num_pred).foldl (match_detection_step num_true threshold ious)
    (List.replicate num_true (-1), [])).2

/-- All-zero `[T, K]` tensor (`initializers.Zeros`). -/
def zero_mat : Mat := fun _ _ => 0

/-- All-zero `[K]` tensor. -/
def zero_vec : Vec := fun _ => 0

/-- Pointwise tensor addition (`assign_add`). -/
def add_mat (a b : Mat) : Mat := fun t k => a t k + b t k

/-- Pointwise vector addition. -/
def add_vec (a b : Vec) : Vec := fun k => a k + b k

/-- The three counters tracked by `COCOBase`: `true_positives [T, K]`,
`false_positives [T, K]` and `ground_truth_boxes [K]`. -/
structure CounterState where
  true_positives : Mat
  false_positives : Mat
  ground_truth_boxes : Vec

def zero_state : CounterState := ⟨zero_mat, zero_mat, zero_vec⟩

/-- The configuration fixed by `COCOBase.__init__`; `iou_thresholds` is the
effective `_user_iou_thresholds` list after the `or`-default. -/
structure COCOBaseConfig where
  iou_thresholds : List ℚ
  category_ids : List ℚ
  area_range_lo : ℚ
  area_range_hi : ℚ
  max_detections : ℕ

/-- `[x / 100.0 for x in range(50, 100, 5)]`. -/
def default_iou_thresholds : List ℚ :=
  (List.range' 50 10 5).map (fun x => (x : ℚ) / 100)

/-- Python's `a or b` on an optional list: `None` and the empty list are
falsy and yield the default. -/
def py_or_list (x : Option (List ℚ)) (d : List ℚ) : List ℚ :=
  match x with
  | none => d
  | some l => if l.isEmpty then d else l

/-- `COCOBase.__init__`: fix the configuration (`iou_thresholds or
[x/100 ...]`) and zero-initialize the counters. -/
def coco_init (iou_thresholds : Option (List ℚ)) (category_ids : List ℚ)
    (lo hi : ℚ) (max_detections : ℕ) : COCOBaseConfig × CounterState :=
  ({ iou_thresholds := py_or_list iou_thresholds default_iou_thresholds,
     category_ids := category_ids,
     area_range_lo := lo,
     area_range_hi := hi,
     max_detections := max_detections }, zero_state)

/-- Shape of the `true_positives` weight: `(num_thresholds, num_categories)`
with `num_thresholds = len(self._user_iou_thresholds)`. -/
def tp_shape (cfg : COCOBaseConfig) : ℕ × ℕ :=
  (cfg.iou_thresholds.length, cfg.category_ids.length)

/-- Shape of the `false_positives` weight. -/
def fp_shape (cfg : COCOBaseConfig) : ℕ × ℕ :=
  (cfg.iou_thresholds.length, cfg.category_ids.length)

/-- Shape of the `ground_truth_boxes` weight: `(num_categories,)`. -/
def gt_shape (cfg : COCOBaseConfig) : ℕ :=
  cfg.category_ids.length

/-- `COCOBase.reset_state`: assign zeros to all three counters. -/
def reset_state (_st : CounterState) : CounterState :=
  { true_positives := zero_mat,
    false_positives := zero_mat,
    ground_truth_boxes := zero_vec }

/-- Modelled from the spec: `util.filter_out_sentinels` is not under `src/`;
the spec says sentinel padding entries (marked by a reserved class id, here
`-1`) must be removed before any computation. -/
def filter_out_sentinels (boxes : List Box) : List Box :=
  boxes.filter (fun b => decide (b.cls ≠ -1))

/-- Modelled from the spec: box area is `(x2 - x1) * (y2 - y1)`. -/
def box_area (b : Box) : ℚ :=
  (b.x2 - b.x1) * (b.y2 - b.y1)

/-- Modelled from the spec: `util.filter_boxes_by_area_range` is not under
`src/`; it keeps boxes whose area lies in the inclusive range. -/
def filter_boxes_by_area_range (boxes : List Box) (lo hi : ℚ) : List Box :=
  boxes.filter (fun b => decide (lo ≤ box_area b ∧ box_area b ≤ hi))

/-- Modelled from the spec: `util.filter_boxes` on the class axis is not
under `src/`; it keeps boxes whose class equals `value`. -/
def filter_boxes (boxes : List Box) (value : ℚ) : List Box :=
  boxes.filter (fun b => decide (b.cls = value))

/-- Insert a box into a confidence-descending list, after all strictly more
confident boxes (stable for ties). -/
def insert_by_conf (b : Box) : List Box → List Box
  | [] => [b]
  | c :: cs => if c.conf > b.conf then c :: insert_by_conf b cs else b :: c :: cs

/-- Modelled from the spec: `util.sort_bboxes` on the confidence axis is not
under `src/`; the spec requires a stable sort by confidence, descending,
applied to each image's boxes. -/
def sort_bboxes (boxes : List Box) : List Box :=
  boxes.foldr insert_by_conf []

/-- Modelled from the spec: `iou_lib.compute_ious_for_image` is not under
`src/`; the spec treats the IoU provider as a black box returning a table
indexed `[ground_truth_index, detection_index]`.  The pairwise IoU is
abstracted as the parameter `f`. -/
def compute_ious_table (f : Box → Box → ℚ) (gts dets : List Box) : Mat :=
  fun g d => f (gts.getD g default_box) (dets.getD d default_box)

/-- Python truthiness of the `sample_weight` argument: `None` and `0` are
falsy. -/
def py_truthy (w : Option ℚ) : Bool :=
  match w with
  | none => false
  | some v => decide (v ≠ 0)

/-- `tf.math.reduce_sum(tf.cast(pred_matches != -1, tf.float32))`. -/
def count_true_positives (pm : List ℤ) : ℚ :=
  ((pm.filter (fun x => decide (x ≠ -1))).length : ℚ)

/-- `tf.math.reduce_sum(tf.cast(pred_matches == -1, tf.float32))`. -/
def count_false_positives (pm : List ℤ) : ℚ :=
  ((pm.filter (fun x => decide (x = -1))).length : ℚ)

/-- `tf.tensor_scatter_nd_add` at a single `[t, k]` index. -/
def scatter_add2 (m : Mat) (t k : ℕ) (v : ℚ) : Mat :=
  fun t' k' => if t' = t ∧ k' = k then m t' k' + v else m t' k'

/-- `tf.tensor_scatter_nd_add` at a single `[k]` index. -/
def scatter_add1 (g : Vec) (k : ℕ) (v : ℚ) : Vec :=
  fun k' => if k' = k then g k' + v else g k'

/-- `detections = category_filtered_y_pred[:max_detections]` when the
filtered count exceeds `max_detections`, else unchanged. -/
def capped_detections (max_detections : ℕ) (boxes : List Box) : List Box :=
  if max_detections < boxes.length then boxes.take max_detections else boxes

/-- Body of the `for t_i in tf.range(num_thresholds)` loop of
`COCOBase.update_state`: match at this threshold and scatter-add the
true-positive and false-positive sums at `[t_i, k_i]`. -/
def threshold_step (cfg : COCOBaseConfig) (ground_truths detections : List Box)
    (ious : Mat) (k_i : ℕ) (acc : Mat × Mat) (t_i : ℕ) : Mat × Mat :=
  let threshold := cfg.iou_thresholds.getD t_i 0
  let pred_matches :=
    match_boxes ground_truths.length detections.length threshold ious
  (scatter_add2 acc.1 t_i k_i (count_true_positives pred_matches),
   scatter_add2 acc.2 t_i k_i (count_false_positives pred_matches))

/-- The threshold loop of `COCOBase.update_state`. -/
def threshold_loop (cfg : COCOBaseConfig) (ground_truths detections : List Box)
    (ious : Mat) (k_i : ℕ) (acc : Mat × Mat) : Mat × Mat :=
  (List.range cfg.iou_thresholds.length).foldl
    (threshold_step cfg ground_truths detections ious k_i) acc

/-- Body of the `for k_i in tf.range(num_categories)` loop of
`COCOBase.update_state`: filter to the category, cap the detections, build
the IoU table, run the threshold loop, then scatter-add the ground-truth
count at `[k_i]` (once, outside the threshold loop). -/
def category_step (cfg : COCOBaseConfig) (f : Box → Box → ℚ)
    (area_filtered_y_true area_filtered_y_pred : List Box)
    (acc : Mat × Mat × Vec) (k_i : ℕ) : Mat × Mat × Vec :=
  let category := cfg.category_ids.getD k_i 0
  let category_filtered_y_pred := filter_boxes area_filtered_y_pred category
  let detections := capped_detections cfg.max_detections category_filtered_y_pred
  let ground_truths := filter_boxes area_filtered_y_true category
  let ious := compute_ious_table f ground_truths detections
  let tpfp := threshold_loop cfg ground_truths detections ious k_i (acc.1, acc.2.1)
  (tpfp.1, tpfp.2, scatter_add1 acc.2.2 k_i ((ground_truths.length : ℚ)))

/-- Body of the `for img in tf.range(num_images)` loop of
`COCOBase.update_state`: sentinel- and area-filter both box sets, then run
the category loop. -/
def image_step (cfg : COCOBaseConfig) (f : Box → Box → ℚ)
    (acc : Mat × Mat × Vec) (img : List Box × List Box) : Mat × Mat × Vec :=
  let sentinel_filtered_y_true := filter_out_sentinels img.1
  let sentinel_filtered_y_pred := filter_out_sentinels img.2
  let area_filtered_y_true := filter_boxes_by_area_range
    sentinel_filtered_y_true cfg.area_range_lo cfg.area_range_hi
  let area_filtered_y_pred := filter_boxes_by_area_range
    sentinel_filtered_y_pred cfg.area_range_lo cfg.area_range_hi
  (List.range cfg.category_ids.length).foldl
    (category_step cfg f area_filtered_y_true area_filtered_y_pred) acc

/-- The pure accumulation of `COCOBase.update_state` after the
`sample_weight` guard: sort predictions per image by confidence, build the
per-batch update tensors starting from zeros, and `assign_add` them onto the
persistent counters.  The per-image pairing follows the tensors' shared
batch dimension. -/
def update_counters (cfg : COCOBaseConfig) (f : Box → Box → ℚ)
    (y_true y_pred : List (List Box)) (st : CounterState) : CounterState :=
  let y_pred_sorted := y_pred.map sort_bboxes
  let upd := (y_true.zip y_pred_sorted).foldl (image_step cfg f)
    (zero_mat, zero_mat, zero_vec)
  { true_positives := add_mat st.true_positives upd.1,
    false_positives := add_mat st.false_positives upd.2.1,
    ground_truth_boxes := add_vec st.ground_truth_boxes upd.2.2 }

/-- `COCOBase.update_state`: raise `NotImplementedError` when
`sample_weight` is truthy, otherwise accumulate. -/
def update_state (cfg : COCOBaseConfig) (f : Box → Box → ℚ)
    (y_true y_pred : List (List Box)) (sample_weight : Option ℚ)
    (st : CounterState) : Except String CounterState :=
  if py_truthy sample_weight then
    Except.error "sample_weight is not yet supported in keras_cv COCO metrics."
  else Except.ok (update_counters cfg f y_true y_pred st)

/-- Whether a call raised. -/
def is_error {α : Type} : Except String α → Bool
  | Except.error _ => true
  | Except.ok _ => false

/-- The sentinel- and area-filtered ground-truth boxes of category slot
`k_i` for one image, exactly as computed inside the category loop. -/
def img_cat_ground_truths (cfg : COCOBaseConfig) (y_true_img : List Box)
    (k_i : ℕ) : List Box :=
  filter_boxes
    (filter_boxes_by_area_range (filter_out_sentinels y_true_img)
      cfg.area_range_lo cfg.area_range_hi)
    (cfg.category_ids.getD k_i 0)

/-- The sorted, sentinel- and area-filtered, category-filtered predictions
of category slot `k_i` for one image, before the max-detections cap. -/
def cat_filtered_preds (cfg : COCOBaseConfig) (y_pred_img : List Box)
    (k_i : ℕ) : List Box :=
  filter_boxes
    (filter_boxes_by_area_range (filter_out_sentinels (sort_bboxes y_pred_img))
      cfg.area_range_lo cfg.area_range_hi)
    (cfg.category_ids.getD k_i 0)

/-- The capped detections of category slot `k_i` for one image, exactly as
passed to the IoU provider and the matcher. -/
def img_cat_detections (cfg : COCOBaseConfig) (y_pred_img : List Box)
    (k_i : ℕ) : List Box :=
  capped_detections cfg.max_detections (cat_filtered_preds cfg y_pred_img k_i)

/-- Pointwise addition on the `(tp, fp, gt)` update triple. -/
def add_triple (x y : Mat × Mat × Vec) : Mat × Mat × Vec :=
  (add_mat x.1 y.1, add_mat x.2.1 y.2.1, add_vec x.2.2 y.2.2)

/-- An image tensor `[height, width, channels]` of floats. -/
abbrev Image : Type := List (List (List ℚ))

/-- A one-hot label batch `[batch, num_classes]`. -/
abbrev Labels : Type := List (List ℚ)

/-- Randomness oracle for the CutMix layer: the draw of
`tf.random.uniform([])` used for `augment_cond`, the shuffled batch order of
`tf.random.shuffle(tf.range(batch_size))`, the per-image values of
`tf.math.sqrt(1 - lambda_sample)` (a pure function of the Beta draws of
`_sample_from_beta`, supplied directly by the oracle), and the per-image
uniform cut centers. -/
structure CutMixRand where
  augment_draw : ℚ
  permutation_order : List ℕ
  cut_ratios : ℕ → ℚ
  center_heights : ℕ → ℕ
  center_widths : ℕ → ℕ

/-- `tf.gather` on the batch axis; raises on an out-of-range index. -/
def tf_gather {α : Type} : List α → List ℕ → Except String (List α)
  | _, [] => Except.ok []
  | l, i :: is =>
    if h : i < l.length then
      match tf_gather l is with
      | Except.ok rest => Except.ok (l.get ⟨i, h⟩ :: rest)
      | Except.error e => Except.error e
    else Except.error "gather index out of bounds"

/-- `_fill_rectangle`: overwrite with `replace` the pixels of the rectangle
whose padded mask is zero — rows `[lower_pad, image_height - upper_pad)` and
columns `[left_pad, image_width - right_pad)`; the `tf.maximum(0, ...)` pad
clamps are the truncation of `ℕ` subtraction. -/
def fill_rectangle (image : Image)
    (center_width center_height half_width half_height : ℕ)
    (replace : Image) : Image :=
  let image_height := image.length
  let image_width := (image.getD 0 []).length
  let lower_pad := center_height - half_height
  let upper_pad := image_height - center_height - half_height
  let left_pad := center_width - half_width
  let right_pad := image_width - center_width - half_width
  image.mapIdx (fun i row =>
    row.mapIdx (fun j px =>
      if lower_pad ≤ i ∧ i < image_height - upper_pad
          ∧ left_pad ≤ j ∧ j < image_width - right_pad
      then (replace.getD i []).getD j px
      else px))

/-- `CutMix._smooth_labels`: `off = smoothing / num_classes`,
`on = 1 - smoothing + off`, `labels * on + (1 - labels) * off`. -/
def smooth_labels (label_smoothing : ℚ) (labels : Labels) : Labels :=
  let off_value := label_smoothing / ((labels.getD 0 []).length : ℚ)
  let on_value := 1 - label_smoothing + off_value
  labels.map (fun row => row.map (fun v => v * on_value + (1 - v) * off_value))

/-- `CutMix._cutmix`: gather the permuted images, compute the integer cut
sizes (`cut_width` uses `image_height`, as in the source), recompute
`lambda_sample` from the integer box area, and fill each image's rectangle
from its permuted partner. -/
def cutmix (rnd : CutMixRand) (images : List Image) (labels : Labels) :
    Except String (List Image × Labels × List ℚ × List ℕ) :=
  let batch_size := images.length
  let image_height := (images.getD 0 []).length
  let image_width := ((images.getD 0 []).getD 0 []).length
  let cut_height := fun i => (rnd.cut_ratios i * (image_height : ℚ)).floor.toNat
  let cut_width := fun i => (rnd.cut_ratios i * (image_height : ℚ)).floor.toNat
  let lambda_sample := fun i =>
    1 - ((cut_height i * cut_width i : ℕ) : ℚ)
      / ((image_height * image_width : ℕ) : ℚ)
  match tf_gather images rnd.permutation_order with
  | Except.error e => Except.error e
  | Except.ok permuted =>
    Except.ok
      ((List.range batch_size).map (fun i =>
        fill_rectangle (images.getD i []) (rnd.center_widths i)
          (rnd.center_heights i) (cut_width i / 2) (cut_height i / 2)
          (permuted.getD i [])),
       labels,
       (List.range batch_size).map lambda_sample,
       rnd.permutation_order)

/-- `CutMix._update_labels`: smooth the labels, gather the permuted labels,
and mix them with the per-image `lambda_sample` broadcast over classes. -/
def update_labels (label_smoothing : ℚ) (images : List Image)
    (labels : Labels) (lambda_sample : List ℚ)
    (permutation_order : List ℕ) : Except String (List Image × Labels) :=
  let labels_smoothed := smooth_labels label_smoothing labels
  match tf_gather labels permutation_order with
  | Except.error e => Except.error e
  | Except.ok cutout_labels =>
    Except.ok (images,
      (List.range labels.length).map (fun i =>
        (List.range ((labels.getD i []).length)).map (fun j =>
          lambda_sample.getD i 0 * ((labels_smoothed.getD i []).getD j 0)
            + (1 - lambda_sample.getD i 0)
              * ((cutout_labels.getD i []).getD j 0))))

/-- The warning logged by `CutMix.call` for a single-image batch. -/
def cutmix_single_image_warning : String :=
  "CutMix received a single image to `call`.  The layer relies on combining multiple examples, and as such will not behave as expected.  Please call the layer with 2 or more samples."

/-- `CutMix.call`: warn (but do not fail) when the batch holds exactly one
image, then apply either the cutmix-augment branch or the
smoothing-only branch depending on the uniform draw against `rate`. -/
def cutmix_call (rate label_smoothing : ℚ) (rnd : CutMixRand)
    (images : List Image) (labels : Labels) :
    List String × Except String (List Image × Labels) :=
  let warnings :=
    if images.length = 1 then [cutmix_single_image_warning] else []
  let result :=
    if rnd.augment_draw < rate then
      match cutmix rnd images labels with
      | Except.error e => Except.error e
      | Except.ok (imgs, labs, lam, perm) =>
        update_labels label_smoothing imgs labs lam perm
    else
      Except.ok (images, smooth_labels label_smoothing labels)
  (warnings, result)

/-- Generic invariant-preservation lemma for `List.foldl`. -/
lemma foldl_invariant {α β : Type} (P : β → Prop) (f : β → α → β) :
    ∀ (L : List α) (b : β), P b → (∀ s a, a ∈ L → P s → P (f s a)) →
      P (L.foldl f b)
  | [], _, hb, _ => hb
  | a :: L, b, hb, hstep => by
    simp only [List.foldl_cons]
    exact foldl_invariant P f L (f b a) (hstep b a (List.mem_cons_self a L) hb)
      (fun s x hx hs => hstep s x (List.mem_cons_of_mem a hx) hs)

lemma getD_set_self : ∀ (l : List ℤ) (n : ℕ) (a d : ℤ), n < l.length →
    (l.set n a).getD n d = a
  | _ :: _, 0, _, _, _ => rfl
  | _ :: xs, n + 1, a, d, h => by
    simpa using getD_set_self xs n a d (by simpa using h)
  | [], _, _, _, h => by simp at h

lemma getD_set_ne : ∀ (l : List ℤ) (m n : ℕ) (a d : ℤ), m ≠ n →
    (l.set m a).getD n d = l.getD n d
  | [], _, _, _, _, _ => rfl
  | _ :: _, 0, 0, _, _, h => absurd rfl h
  | _ :: _, 0, _ + 1, _, _, _ => rfl
  | _ :: _, _ + 1, 0, _, _, _ => rfl
  | _ :: xs, j + 1, k + 1, a, d, h => by
    simpa using getD_set_ne xs j k a d (fun hc => h (by rw [hc]))

/-- The result of one ground-truth scan is either `-1` or the index of an
unmatched ground-truth below `num_true`. -/
lemma match_scan_spec (gm : List ℤ) (nT : ℕ) (θ : ℚ) (ious : Mat) (d : ℕ) :
    (match_scan gm nT θ ious d).2 = -1
    ∨ ∃ g : ℕ, g < nT ∧ (match_scan gm nT θ ious d).2 = (g : ℤ)
        ∧ ¬ gm.getD g (-1) > -1 := by
  unfold match_scan
  apply foldl_invariant
    (fun st : ℚ × ℤ => st.2 = -1
      ∨ ∃ g : ℕ, g < nT ∧ st.2 = (g : ℤ) ∧ ¬ gm.getD g (-1) > -1)
    _ _ _ (Or.inl rfl)
  intro st g hg hst
  split
  · exact hst
  · split
    · exact hst
    · rename_i h1 h2
      exact Or.inr ⟨g, List.mem_range.mp hg, rfl, h1⟩

/-- The `pred_matches` slot written for one detection is appended in index
order. -/
lemma match_detection_step_snd (nT : ℕ) (θ : ℚ) (ious : Mat)
    (st : List ℤ × List ℤ) (d : ℕ) :
    (match_detection_step nT θ ious st d).2
      = st.2 ++ [(match_scan st.1 nT θ ious d).2] := by
  unfold match_detection_step
  by_cases h : (match_scan st.1 nT θ ious d).2 = -1 <;> simp [h]

lemma match_fold_snd_length (nT : ℕ) (θ : ℚ) (ious : Mat) :
    ∀ (L : List ℕ) (st : List ℤ × List ℤ),
      ((L.foldl (match_detection_step nT θ ious) st).2).length
        = st.2.length + L.length
  | [], st => by simp
  | d :: L, st => by
    simp only [List.foldl_cons]
    rw [match_fold_snd_length nT θ ious L]
    rw [match_detection_step_snd]
    simp [Nat.add_assoc, Nat.add_comm 1]

/-- `_match_boxes` returns one entry per detection. -/
lemma match_boxes_length (nT nP : ℕ) (θ : ℚ) (ious : Mat) :
    (match_boxes nT nP θ ious).length = nP := by
  unfold match_boxes
  rw [match_fold_snd_length]
  simp

/-- Invariant of the detection loop of `_match_boxes`: `gt_matches` keeps its
size, every recorded match is `-1` or an in-range ground-truth index, every
ground-truth recorded in `pred_matches` is marked consumed in `gt_matches`,
and no ground-truth index is recorded twice. -/
lemma match_fold_main_inv (nT : ℕ) (θ : ℚ) (ious : Mat) (L : List ℕ)
    (st : List ℤ × List ℤ)
    (h0 : st.1.length = nT
      ∧ (∀ x ∈ st.2, x = -1 ∨ (0 ≤ x ∧ x < (nT : ℤ)))
      ∧ (∀ g : ℕ, (g : ℤ) ∈ st.2 → st.1.getD g (-1) > -1)
      ∧ (st.2.filter (fun x => decide (x ≠ -1))).Nodup) :
    ((L.foldl (match_detection_step nT θ ious) st).1.length = nT
      ∧ (∀ x ∈ (L.foldl (match_detection_step nT θ ious) st).2,
          x = -1 ∨ (0 ≤ x ∧ x < (nT : ℤ)))
      ∧ (∀ g : ℕ, (g : ℤ) ∈ (L.foldl (match_detection_step nT θ ious) st).2 →
          (L.foldl (match_detection_step nT θ ious) st).1.getD g (-1) > -1)
      ∧ (((L.foldl (match_detection_step nT θ ious) st).2.filter
          (fun x => decide (x ≠ -1))).Nodup)) := by
  apply foldl_invariant
    (fun st : List ℤ × List ℤ => st.1.length = nT
      ∧ (∀ x ∈ st.2, x = -1 ∨ (0 ≤ x ∧ x < (nT : ℤ)))
      ∧ (∀ g : ℕ, (g : ℤ) ∈ st.2 → st.1.getD g (-1) > -1)
      ∧ (st.2.filter (fun x => decide (x ≠ -1))).Nodup)
    _ _ _ h0
  intro s d _ hP
  obtain ⟨hlen, hmem, hlink, hnodup⟩ := hP
  rcases match_scan_spec s.1 nT θ ious d with hm | ⟨g₀, hg₀, hmEq, hg₀un⟩
  · have hstep : match_detection_step nT θ ious s d = (s.1, s.2 ++ [-1]) := by
      unfold match_detection_step
      rw [hm]
      simp
    rw [hstep]
    refine ⟨hlen, ?_, ?_, ?_⟩
    · intro x hx
      rcases List.mem_append.mp hx with hx | hx
      · exact hmem x hx
      · exact Or.inl (List.mem_singleton.mp hx)
    · intro g hg
      rcases List.mem_append.mp hg with hg | hg
      · exact hlink g hg
      · have hgeq := List.mem_singleton.mp hg
        have : (0 : ℤ) ≤ (g : ℤ) := Int.natCast_nonneg g
        omega
    · simpa [List.filter_append] using hnodup
  · have hne : ((g₀ : ℤ)) ≠ -1 := by
      have : (0 : ℤ) ≤ (g₀ : ℤ) := Int.natCast_nonneg g₀
      omega
    have hstep : match_detection_step nT θ ious s d
        = (s.1.set g₀ (d : ℤ), s.2 ++ [(g₀ : ℤ)]) := by
      unfold match_detection_step
      rw [hmEq, if_neg hne]
      simp
    rw [hstep]
    refine ⟨by simpa using hlen, ?_, ?_, ?_⟩
    · intro x hx
      rcases List.mem_append.mp hx with hx | hx
      · exact hmem x hx
      · refine Or.inr ⟨?_, ?_⟩
        · rw [List.mem_singleton.mp hx]
          exact Int.natCast_nonneg g₀
        · rw [List.mem_singleton.mp hx]
          exact_mod_cast hg₀
    · intro g hg
      rcases List.mem_append.mp hg with hg | hg
      · have hold := hlink g hg
        have hgne : g ≠ g₀ := by
          intro hc
          rw [hc] at hold
          exact hg₀un hold
        rw [getD_set_ne _ _ _ _ _ (fun hc => hgne hc.symm)]
        exact hold
      · have : g = g₀ := by exact_mod_cast List.mem_singleton.mp hg
        subst this
        rw [getD_set_self _ _ _ _ (hlen ▸ hg₀)]
        have : (0 : ℤ) ≤ (d : ℤ) := Int.natCast_nonneg d
        omega
    · have hfilter : (s.2 ++ [(g₀ : ℤ)]).filter (fun x => decide (x ≠ -1))
          = s.2.filter (fun x => decide (x ≠ -1)) ++ [(g₀ : ℤ)] := by
        simp [List.filter_append, hne]
      rw [hfilter]
      rw [List.nodup_append]
      refine ⟨hnodup, List.nodup_singleton _, ?_⟩
      intro a ha ha'
      have haeq : a = (g₀ : ℤ) := List.mem_singleton.mp ha'
      subst haeq
      have hmem₀ : ((g₀ : ℤ)) ∈ s.2 := (List.mem_filter.mp ha).1
      exact hg₀un (hlink g₀ hmem₀)

lemma match_fold_empty_gts (θ : ℚ) (ious : Mat) :
    ∀ (L : List ℕ) (pm : List ℤ),
      L.foldl (match_detection_step 0 θ ious) (([] : List ℤ), pm)
        = ([], pm ++ List.replicate L.length (-1))
  | [], pm => by simp
  | d :: L, pm => by
    have hstep : match_detection_step 0 θ ious (([] : List ℤ), pm) d
        = ([], pm ++ [-1]) := by
      unfold match_detection_step match_scan
      simp
    simp only [List.foldl_cons, hstep]
    rw [match_fold_empty_gts θ ious L]
    simp [List.replicate_succ]

/-- Claim C4: every entry of the assignment returned by `_match_boxes` is
either `-1` or a ground-truth index in `[0, num_true)`, and the non-`-1`
entries are pairwise distinct, so each detection gets at most one
ground-truth and each ground-truth at most one detection. -/
theorem match_boxes_assignment_valid (num_true num_pred : ℕ) (threshold : ℚ)
    (ious : Mat) :
    ((match_boxes num_true num_pred threshold ious).all
        (fun x => decide (x = -1 ∨ (0 ≤ x ∧ x < (num_true : ℤ))))) = true
    ∧ ((match_boxes num_true num_pred threshold ious).filter
        (fun x => decide (x ≠ -1))).Nodup := by
  have h := match_fold_main_inv num_true threshold ious (List.range num_pred)
      (List.replicate num_true (-1), []) ⟨by simp, by simp, by simp, by simp⟩
  unfold match_boxes
  constructor
  · simp only [List.all_eq_true, decide_eq_true_eq]
    exact h.2.1
  · exact h.2.2.2

/-- Claim C5: with zero ground-truths `_match_boxes` returns `-1` for every
detection (one entry per detection), and with zero detections it returns the
empty assignment. -/
theorem match_boxes_empty_inputs (num_true num_pred : ℕ) (threshold : ℚ)
    (ious : Mat) :
    match_boxes 0 num_pred threshold ious = List.replicate num_pred (-1)
    ∧ (match_boxes 0 num_pred threshold ious).length = num_pred
    ∧ match_boxes num_true 0 threshold ious = [] := by
  refine ⟨?_, match_boxes_length 0 num_pred threshold ious, ?_⟩
  · unfold match_boxes
    simp only [List.replicate_zero]
    rw [match_fold_empty_gts threshold ious (List.range num_pred) []]
    simp
  · unfold match_boxes
    simp

lemma filter_ne_add_eq_length (pm : List ℤ) :
    (pm.filter (fun x => decide (x ≠ -1))).length
      + (pm.filter (fun x => decide (x = -1))).length = pm.length := by
  induction pm with
  | nil => rfl
  | cons x xs ih =>
    by_cases h : x = -1 <;> simp [List.filter_cons, h] at ih ⊢ <;> omega

/-- Every match entry is a true positive or a false positive. -/
lemma count_tp_add_fp (pm : List ℤ) :
    count_true_positives pm + count_false_positives pm = (pm.length : ℚ) := by
  unfold count_true_positives count_false_positives
  exact_mod_cast filter_ne_add_eq_length pm

/-- Closed form of the threshold loop at one `[t, k']` cell: each cell in
row `t < T`, column `k_i` receives exactly the counts of the match run at
threshold index `t`. -/
lemma threshold_fold_cells (cfg : COCOBaseConfig) (gts dets : List Box)
    (ious : Mat) (k_i : ℕ) (t k' : ℕ) :
    ∀ (L : List ℕ), L.Nodup → ∀ (acc : Mat × Mat),
      (L.foldl (threshold_step cfg gts dets ious k_i) acc).1 t k'
        = acc.1 t k' + (if t ∈ L ∧ k' = k_i then
            count_true_positives (match_boxes gts.length dets.length
              (cfg.iou_thresholds.getD t 0) ious) else 0)
      ∧ (L.foldl (threshold_step cfg gts dets ious k_i) acc).2 t k'
        = acc.2 t k' + (if t ∈ L ∧ k' = k_i then
            count_false_positives (match_boxes gts.length dets.length
              (cfg.iou_thresholds.getD t 0) ious) else 0)
  | [], _, acc => by simp
  | a :: L, hnd, acc => by
    have ha : a ∉ L := (List.nodup_cons.mp hnd).1
    have hL : L.Nodup := (List.nodup_cons.mp hnd).2
    simp only [List.foldl_cons]
    obtain ⟨ih1, ih2⟩ := threshold_fold_cells cfg gts dets ious k_i t k' L hL
      (threshold_step cfg gts dets ious k_i acc a)
    have hstep1 : (threshold_step cfg gts dets ious k_i acc a).1 t k'
        = if t = a ∧ k' = k_i then acc.1 t k'
            + count_true_positives (match_boxes gts.length dets.length
              (cfg.iou_thresholds.getD a 0) ious)
          else acc.1 t k' := rfl
    have hstep2 : (threshold_step cfg gts dets ious k_i acc a).2 t k'
        = if t = a ∧ k' = k_i then acc.2 t k'
            + count_false_positives (match_boxes gts.length dets.length
              (cfg.iou_thresholds.getD a 0) ious)
          else acc.2 t k' := rfl
    constructor
    · rw [ih1, hstep1]
      by_cases hk : k' = k_i
      · by_cases hta : t = a
        · subst hta
          simp [hk, ha]
        · by_cases htL : t ∈ L <;>
            simp [hk, hta, htL, List.mem_cons]
      · simp [hk]
    · rw [ih2, hstep2]
      by_cases hk : k' = k_i
      · by_cases hta : t = a
        · subst hta
          simp [hk, ha]
        · by_cases htL : t ∈ L <;>
            simp [hk, hta, htL, List.mem_cons]
      · simp [hk]

/-- At any valid threshold row `t`, the true-positive and false-positive
increments written by the threshold loop at `[t, k_i]` sum to the number of
detections, independently of `t`. -/
lemma threshold_loop_cell_sum (cfg : COCOBaseConfig) (gts dets : List Box)
    (ious : Mat) (k_i t : ℕ) (tp fp : Mat)
    (ht : t < cfg.iou_thresholds.length) :
    (threshold_loop cfg gts dets ious k_i (tp, fp)).1 t k_i
      + (threshold_loop cfg gts dets ious k_i (tp, fp)).2 t k_i
      = tp t k_i + fp t k_i + (dets.length : ℚ) := by
  unfold threshold_loop
  obtain ⟨h1, h2⟩ := threshold_fold_cells cfg gts dets ious k_i t k_i
    (List.range cfg.iou_thresholds.length)
    (List.nodup_range cfg.iou_thresholds.length) (tp, fp)
  rw [h1, h2]
  have hmem : t ∈ List.range cfg.iou_thresholds.length := List.mem_range.mpr ht
  simp only [hmem, and_self, if_pos, true_and]
  have hcnt := count_tp_add_fp (match_boxes gts.length dets.length
    (cfg.iou_thresholds.getD t 0) ious)
  rw [match_boxes_length] at hcnt
  linarith [hcnt]

lemma capped_detections_eq_take (m : ℕ) (l : List Box) :
    capped_detections m l = l.take m := by
  unfold capped_detections
  split
  · rfl
  · rename_i h
    rw [List.take_of_length_le (by omega)]

/-- Closed form of the category loop's ground-truth counter at slot `k`:
each slot in `L` receives the count of category-filtered ground-truths,
exactly once, independent of the threshold loop. -/
lemma category_fold_gt_cell (cfg : COCOBaseConfig) (f : Box → Box → ℚ)
    (aT aP : List Box) (k : ℕ) :
    ∀ (L : List ℕ), L.Nodup → ∀ (acc : Mat × Mat × Vec),
      (L.foldl (category_step cfg f aT aP) acc).2.2 k
        = acc.2.2 k + (if k ∈ L then
            ((filter_boxes aT (cfg.category_ids.getD k 0)).length : ℚ) else 0)
  | [], _, acc => by simp
  | a :: L, hnd, acc => by
    have ha : a ∉ L := (List.nodup_cons.mp hnd).1
    have hL : L.Nodup := (List.nodup_cons.mp hnd).2
    simp only [List.foldl_cons]
    rw [category_fold_gt_cell cfg f aT aP k L hL]
    have hstep : (category_step cfg f aT aP acc a).2.2 k
        = if k = a then acc.2.2 k
            + ((filter_boxes aT (cfg.category_ids.getD a 0)).length : ℚ)
          else acc.2.2 k := rfl
    rw [hstep]
    by_cases hka : k = a
    · subst hka
      simp [ha]
    · by_cases hkL : k ∈ L <;> simp [hka, hkL, List.mem_cons]

/-- Per-image ground-truth counter effect: slot `k < K` is incremented by
the sentinel-, area- and category-filtered ground-truth count of this image,
once, regardless of the thresholds. -/
lemma image_step_gt_cell (cfg : COCOBaseConfig) (f : Box → Box → ℚ)
    (acc : Mat × Mat × Vec) (img : List Box × List Box) (k : ℕ)
    (hk : k < cfg.category_ids.length) :
    (image_step cfg f acc img).2.2 k
      = acc.2.2 k + ((img_cat_ground_truths cfg img.1 k).length : ℚ) := by
  unfold image_step
  rw [category_fold_gt_cell cfg f _ _ k (List.range cfg.category_ids.length)
    (List.nodup_range cfg.category_ids.length) acc]
  simp [List.mem_range.mpr hk, img_cat_ground_truths]

/-- Batch-level ground-truth counter effect: summing the per-image counts. -/
lemma images_fold_gt_cell (cfg : COCOBaseConfig) (f : Box → Box → ℚ) (k : ℕ)
    (hk : k < cfg.category_ids.length) :
    ∀ (L : List (List Box × List Box)) (acc : Mat × Mat × Vec),
      (L.foldl (image_step cfg f) acc).2.2 k
        = acc.2.2 k + ((L.map (fun pr =>
            ((img_cat_ground_truths cfg pr.1 k).length : ℚ))).sum)
  | [], acc => by simp
  | pr :: L, acc => by
    simp only [List.foldl_cons, List.map_cons, List.sum_cons]
    rw [images_fold_gt_cell cfg f k hk L]
    rw [image_step_gt_cell cfg f acc pr k hk]
    ring

lemma add_mat_zero (a : Mat) : add_mat a zero_mat = a := by
  funext t k
  simp [add_mat, zero_mat]

lemma add_vec_zero (a : Vec) : add_vec a zero_vec = a := by
  funext k
  simp [add_vec, zero_vec]

lemma add_mat_assoc (a b c : Mat) :
    add_mat (add_mat a b) c = add_mat a (add_mat b c) := by
  funext t k
  simp only [add_mat]
  ring

lemma add_vec_assoc (a b c : Vec) :
    add_vec (add_vec a b) c = add_vec a (add_vec b c) := by
  funext k
  simp only [add_vec]
  ring

lemma add_triple_zero (X : Mat × Mat × Vec) :
    add_triple X (zero_mat, zero_mat, zero_vec) = X := by
  cases X with
  | mk a bc =>
    cases bc with
    | mk b c =>
      simp [add_triple, add_mat_zero, add_vec_zero]

lemma scatter_add2_add (a b : Mat) (t k : ℕ) (v : ℚ) :
    scatter_add2 (add_mat a b) t k v = add_mat a (scatter_add2 b t k v) := by
  funext t' k'
  simp only [scatter_add2, add_mat]
  by_cases h : t' = t ∧ k' = k
  · simp [h]
    ring
  · simp [h]

lemma scatter_add1_add (a b : Vec) (k : ℕ) (v : ℚ) :
    scatter_add1 (add_vec a b) k v = add_vec a (scatter_add1 b k v) := by
  funext k'
  simp only [scatter_add1, add_vec]
  by_cases h : k' = k
  · simp [h]
    ring
  · simp [h]

/-- The threshold loop only ever adds cell increments that do not depend on
the accumulator, so it commutes with pointwise addition. -/
lemma threshold_fold_add (cfg : COCOBaseConfig) (gts dets : List Box)
    (ious : Mat) (k_i : ℕ) :
    ∀ (L : List ℕ) (a b c d : Mat),
      L.foldl (threshold_step cfg gts dets ious k_i) (add_mat a c, add_mat b d)
        = (add_mat a
            (L.foldl (threshold_step cfg gts dets ious k_i) (c, d)).1,
           add_mat b
            (L.foldl (threshold_step cfg gts dets ious k_i) (c, d)).2)
  | [], a, b, c, d => rfl
  | x :: L, a, b, c, d => by
    simp only [List.foldl_cons]
    have hstep : threshold_step cfg gts dets ious k_i
        (add_mat a c, add_mat b d) x
        = (add_mat a (threshold_step cfg gts dets ious k_i (c, d) x).1,
           add_mat b (threshold_step cfg gts dets ious k_i (c, d) x).2) := by
      simp only [threshold_step, scatter_add2_add]
    rw [hstep]
    exact threshold_fold_add cfg gts dets ious k_i L a b
      (threshold_step cfg gts dets ious k_i (c, d) x).1
      (threshold_step cfg gts dets ious k_i (c, d) x).2

lemma category_step_add (cfg : COCOBaseConfig) (f : Box → Box → ℚ)
    (aT aP : List Box) (X Y : Mat × Mat × Vec) (k_i : ℕ) :
    category_step cfg f aT aP (add_triple X Y) k_i
      = add_triple X (category_step cfg f aT aP Y k_i) := by
  simp only [category_step, add_triple, threshold_loop]
  rw [threshold_fold_add, scatter_add1_add]

lemma category_fold_add (cfg : COCOBaseConfig) (f : Box → Box → ℚ)
    (aT aP : List Box) :
    ∀ (L : List ℕ) (X Y : Mat × Mat × Vec),
      L.foldl (category_step cfg f aT aP) (add_triple X Y)
        = add_triple X (L.foldl (category_step cfg f aT aP) Y)
  | [], _, _ => rfl
  | x :: L, X, Y => by
    simp only [List.foldl_cons]
    rw [category_step_add]
    exact category_fold_add cfg f aT aP L X (category_step cfg f aT aP Y x)

lemma image_step_add (cfg : COCOBaseConfig) (f : Box → Box → ℚ)
    (X Y : Mat × Mat × Vec) (img : List Box × List Box) :
    image_step cfg f (add_triple X Y) img
      = add_triple X (image_step cfg f Y img) := by
  simp only [image_step]
  exact category_fold_add cfg f _ _ _ X Y

lemma images_fold_add (cfg : COCOBaseConfig) (f : Box → Box → ℚ) :
    ∀ (L : List (List Box × List Box)) (X Y : Mat × Mat × Vec),
      L.foldl (image_step cfg f) (add_triple X Y)
        = add_triple X (L.foldl (image_step cfg f) Y)
  | [], _, _ => rfl
  | pr :: L, X, Y => by
    simp only [List.foldl_cons]
    rw [image_step_add]
    exact images_fold_add cfg f L X (image_step cfg f Y pr)

/-- Running the image loop from any accumulator splits off the accumulator
additively. -/
lemma images_fold_from (cfg : COCOBaseConfig) (f : Box → Box → ℚ)
    (L : List (List Box × List Box)) (X : Mat × Mat × Vec) :
    L.foldl (image_step cfg f) X
      = add_triple X (L.foldl (image_step cfg f)
          (zero_mat, zero_mat, zero_vec)) := by
  conv_lhs => rw [← add_triple_zero X]
  exact images_fold_add cfg f L X _

/-- Claim C1 (code-bug evidence): `_match_boxes` compares each ground-truth's
IoU against the fixed `threshold` argument; the local `iou` variable that
would tighten the comparison is assigned but never read.  Hence with two
unmatched ground-truths at equal IoU `3/5 ≥ 1/2` the LAST-scanned index 1 is
returned (the claim requires index 0), and a later ground-truth with lower
IoU `3/5 < 9/10` still replaces the earlier better candidate. -/
theorem match_boxes_threshold_never_tightened :
    match_boxes 2 1 (1/2) (fun _ _ => 3/5) = [1]
    ∧ match_boxes 2 1 (1/2) (fun g _ => if g = 0 then 9/10 else 3/5) = [1] := by
  constructor <;>
    norm_num [match_boxes, match_detection_step, match_scan, List.range_succ]

/-- Ground-truth counter formula for a whole update call. -/
lemma update_counters_gt (cfg : COCOBaseConfig) (f : Box → Box → ℚ)
    (y_true y_pred : List (List Box)) (st : CounterState) (k : ℕ)
    (hk : k < cfg.category_ids.length) :
    (update_counters cfg f y_true y_pred st).ground_truth_boxes k
      = st.ground_truth_boxes k
        + (((y_true.zip (y_pred.map sort_bboxes)).map (fun pr =>
            ((img_cat_ground_truths cfg pr.1 k).length : ℚ))).sum) := by
  unfold update_counters
  simp only [add_vec]
  rw [images_fold_gt_cell cfg f k hk]
  simp [zero_vec]

/-- Claim C6: in every update call the ground-truth counter at a valid
category slot `k` is incremented by the sentinel- and area-filtered
ground-truth count of that category, summed once per image — and the result
is unchanged if the configured threshold list is replaced by any other. -/
theorem ground_truth_counted_once_per_image_category (cfg : COCOBaseConfig)
    (f : Box → Box → ℚ) (y_true y_pred : List (List Box)) (st : CounterState)
    (k : ℕ) (hk : k < cfg.category_ids.length) :
    (update_counters cfg f y_true y_pred st).ground_truth_boxes k
      = st.ground_truth_boxes k
        + (((y_true.zip (y_pred.map sort_bboxes)).map (fun pr =>
            ((img_cat_ground_truths cfg pr.1 k).length : ℚ))).sum)
    ∧ ∀ ts : List ℚ,
      (update_counters { cfg with iou_thresholds := ts } f y_true y_pred
          st).ground_truth_boxes k
        = (update_counters cfg f y_true y_pred st).ground_truth_boxes k := by
  refine ⟨update_counters_gt cfg f y_true y_pred st k hk, ?_⟩
  intro ts
  rw [update_counters_gt cfg f y_true y_pred st k hk,
    update_counters_gt { cfg with iou_thresholds := ts } f y_true y_pred st k hk]
  rfl

/-- Claim C9: for one image and category slot, at every valid threshold row
`t` the true-positive plus false-positive increment written at `[t, k_i]`
equals the number of capped, filtered detections — the same value for every
`t`; the threshold only splits it between the two counters. -/
theorem tp_fp_increments_partition_detections (cfg : COCOBaseConfig)
    (f : Box → Box → ℚ) (y_true_img y_pred_img : List Box) (k_i t : ℕ)
    (tp fp : Mat) (ht : t < cfg.iou_thresholds.length) :
    (threshold_loop cfg (img_cat_ground_truths cfg y_true_img k_i)
        (img_cat_detections cfg y_pred_img k_i)
        (compute_ious_table f (img_cat_ground_truths cfg y_true_img k_i)
          (img_cat_detections cfg y_pred_img k_i)) k_i (tp, fp)).1 t k_i
      + (threshold_loop cfg (img_cat_ground_truths cfg y_true_img k_i)
          (img_cat_detections cfg y_pred_img k_i)
          (compute_ious_table f (img_cat_ground_truths cfg y_true_img k_i)
            (img_cat_detections cfg y_pred_img k_i)) k_i (tp, fp)).2 t k_i
      = tp t k_i + fp t k_i
        + ((img_cat_detections cfg y_pred_img k_i).length : ℚ) :=
  threshold_loop_cell_sum cfg _ _ _ k_i t tp fp ht

/-- Claim C7: the detections used for one image and category are exactly the
first `max_detections` entries of the confidence-sorted, filtered
predictions; the excess entries produce no match entry and are counted
neither as true nor as false positives. -/
theorem max_detections_cap_excess_never_counted (cfg : COCOBaseConfig)
    (f : Box → Box → ℚ) (gts : List Box) (y_pred_img : List Box)
    (k_i t : ℕ) (tp fp : Mat) (ht : t < cfg.iou_thresholds.length) :
    img_cat_detections cfg y_pred_img k_i
      = (cat_filtered_preds cfg y_pred_img k_i).take cfg.max_detections
    ∧ (threshold_loop cfg gts (img_cat_detections cfg y_pred_img k_i)
        (compute_ious_table f gts (img_cat_detections cfg y_pred_img k_i))
        k_i (tp, fp)).1 t k_i
      + (threshold_loop cfg gts (img_cat_detections cfg y_pred_img k_i)
          (compute_ious_table f gts (img_cat_detections cfg y_pred_img k_i))
          k_i (tp, fp)).2 t k_i
      = tp t k_i + fp t k_i
        + (((cat_filtered_preds cfg y_pred_img k_i).take
            cfg.max_detections).length : ℚ)
    ∧ (match_boxes gts.length (img_cat_detections cfg y_pred_img k_i).length
        (cfg.iou_thresholds.getD t 0)
        (compute_ious_table f gts
          (img_cat_detections cfg y_pred_img k_i))).length
      = ((cat_filtered_preds cfg y_pred_img k_i).take
          cfg.max_detections).length := by
  have hcap : img_cat_detections cfg y_pred_img k_i
      = (cat_filtered_preds cfg y_pred_img k_i).take cfg.max_detections :=
    capped_detections_eq_take _ _
  refine ⟨hcap, ?_, ?_⟩
  · have h := threshold_loop_cell_sum cfg gts
      (img_cat_detections cfg y_pred_img k_i)
      (compute_ious_table f gts (img_cat_detections cfg y_pred_img k_i))
      k_i t tp fp ht
    rw [h, hcap]
  · rw [match_boxes_length, hcap]

/-- Accumulation over a concatenated batch equals sequential accumulation. -/
lemma update_counters_append (cfg : COCOBaseConfig) (f : Box → Box → ℚ)
    (At Ap Bt Bp : List (List Box)) (st : CounterState)
    (h : At.length = Ap.length) :
    update_counters cfg f (At ++ Bt) (Ap ++ Bp) st
      = update_counters cfg f Bt Bp (update_counters cfg f At Ap st) := by
  have hsplit : (At ++ Bt).zip ((Ap ++ Bp).map sort_bboxes)
      = At.zip (Ap.map sort_bboxes) ++ Bt.zip (Bp.map sort_bboxes) := by
    rw [List.map_append]
    exact List.zip_append (by simp [h])
  simp only [update_counters]
  rw [hsplit, List.foldl_append]
  rw [images_fold_from cfg f (Bt.zip (Bp.map sort_bboxes))]
  simp only [add_triple]
  congr 1
  · rw [add_mat_assoc]
  · rw [add_mat_assoc]
  · rw [add_vec_assoc]

/-- Claim C8: `update(A); update(B)` leaves the counters equal to a single
`update` on the concatenated batch (matching batch dimensions assumed for
the first batch, as for tensors). -/
theorem update_state_additive (cfg : COCOBaseConfig) (f : Box → Box → ℚ)
    (At Ap Bt Bp : List (List Box)) (st : CounterState)
    (h : At.length = Ap.length) :
    update_state cfg f (At ++ Bt) (Ap ++ Bp) none st
      = (update_state cfg f At Ap none st).bind
          (update_state cfg f Bt Bp none) := by
  show Except.ok (update_counters cfg f (At ++ Bt) (Ap ++ Bp) st)
    = Except.ok (update_counters cfg f Bt Bp (update_counters cfg f At Ap st))
  rw [update_counters_append cfg f At Ap Bt Bp st h]

/-- Claim C2 (counterexample): constructing with an EMPTY THRESHOLD list does
NOT produce a zero-sized CounterState: `iou_thresholds or [...]` treats the
empty list as falsy, so the ten default thresholds are installed, every
counter shape is nonzero, and one update call on a single in-range
ground-truth box increments the ground-truth counter — not a no-op. -/
theorem empty_threshold_list_not_degenerate :
    tp_shape (coco_init (some []) [1] 0 (10^18) 100).1 = (10, 1)
    ∧ fp_shape (coco_init (some []) [1] 0 (10^18) 100).1 = (10, 1)
    ∧ gt_shape (coco_init (some []) [1] 0 (10^18) 100).1 = 1
    ∧ (update_counters (coco_init (some []) [1] 0 (10^18) 100).1
        (fun _ _ => 0) [[⟨0, 0, 1, 1, 1, 1⟩]] [[]]
        (coco_init (some []) [1] 0 (10^18) 100).2).ground_truth_boxes 0
      = 1 := by
  refine ⟨by decide, by decide, by decide, ?_⟩
  rw [update_counters_gt _ _ _ _ _ 0 (by decide)]
  norm_num [img_cat_ground_truths, filter_boxes, filter_boxes_by_area_range,
    filter_out_sentinels, box_area, sort_bboxes, coco_init, zero_state,
    zero_vec, List.filter]

/-- Claim C2 (amended): an empty CATEGORY list produces the degenerate
zero-sized CounterState (all three counters have a zero dimension), update
is a no-op on the counters, and reset returns the zero state. -/
theorem empty_category_list_degenerate (cfg : COCOBaseConfig)
    (f : Box → Box → ℚ) (y_true y_pred : List (List Box)) (st : CounterState)
    (h : cfg.category_ids = []) :
    (tp_shape cfg).2 = 0 ∧ (fp_shape cfg).2 = 0 ∧ gt_shape cfg = 0
    ∧ update_counters cfg f y_true y_pred st = st
    ∧ update_state cfg f y_true y_pred none st = Except.ok st
    ∧ reset_state st = zero_state := by
  have himg : ∀ (acc : Mat × Mat × Vec) (img : List Box × List Box),
      image_step cfg f acc img = acc := by
    intro acc img
    simp [image_step, h]
  have hfold : ∀ (L : List (List Box × List Box)) (acc : Mat × Mat × Vec),
      L.foldl (image_step cfg f) acc = acc := by
    intro L
    induction L with
    | nil => intro acc; rfl
    | cons pr L ih =>
      intro acc
      simp only [List.foldl_cons, himg]
      exact ih acc
  have hupd : update_counters cfg f y_true y_pred st = st := by
    simp only [update_counters, hfold]
    cases st with
    | mk a b c => simp [add_mat_zero, add_vec_zero]
  refine ⟨by simp [tp_shape, h], by simp [fp_shape, h], by simp [gt_shape, h],
    hupd, ?_, rfl⟩
  simp [update_state, py_truthy, hupd]

theorem empty_category_list_degenerate_witness :
    ((coco_init none [] 0 1 100).1.category_ids = []
      ∧ ((tp_shape (coco_init none [] 0 1 100).1).2 = 0
        ∧ (fp_shape (coco_init none [] 0 1 100).1).2 = 0
        ∧ gt_shape (coco_init none [] 0 1 100).1 = 0
        ∧ update_counters (coco_init none [] 0 1 100).1 (fun _ _ => 0) [[]] [[]]
            zero_state = zero_state
        ∧ update_state (coco_init none [] 0 1 100).1 (fun _ _ => 0) [[]] [[]]
            none zero_state = Except.ok zero_state
        ∧ reset_state zero_state = zero_state)) :=
  ⟨rfl, empty_category_list_degenerate (coco_init none [] 0 1 100).1
    (fun _ _ => 0) [[]] [[]] zero_state rfl⟩

/-- Claim C3 (counterexample): `sample_weight=0.0` is non-None but falsy, so
the `if sample_weight:` guard does not fire and the call succeeds silently
instead of raising the "not supported" error. -/
theorem sample_weight_zero_silently_ignored :
    (some (0 : ℚ)) ≠ (none : Option ℚ)
    ∧ is_error (update_state (coco_init none [1] 0 1 100).1 (fun _ _ => 0)
        [] [] (some 0) zero_state) = false :=
  ⟨by simp, rfl⟩

/-- Claim C3 (amended): any TRUTHY (non-zero) `sample_weight` makes
`update_state` fail immediately with the "not supported" error, before any
counter is touched; falsy values such as `0.0` are silently accepted. -/
theorem update_state_rejects_truthy_sample_weight (cfg : COCOBaseConfig)
    (f : Box → Box → ℚ) (y_true y_pred : List (List Box)) (st : CounterState)
    (w : ℚ) (hw : w ≠ 0) :
    update_state cfg f y_true y_pred (some w) st
      = Except.error
          "sample_weight is not yet supported in keras_cv COCO metrics." := by
  simp [update_state, py_truthy, hw]

theorem update_state_rejects_truthy_sample_weight_witness :
    ((1 : ℚ) ≠ 0
      ∧ update_state (coco_init none [1] 0 1 100).1 (fun _ _ => 0) [] []
          (some 1) zero_state
        = Except.error
            "sample_weight is not yet supported in keras_cv COCO metrics.") :=
  ⟨by decide, update_state_rejects_truthy_sample_weight _ _ _ _ _ 1 (by decide)⟩

/-- Claim C10: a single-image batch makes `CutMix.call` emit the warning and
still return a result (no failure), whichever branch the augmentation draw
selects (`tf.random.shuffle` of a one-element range yields `[0]`). -/
theorem cutmix_call_single_image_warns_and_returns (rate label_smoothing : ℚ)
    (rnd : CutMixRand) (images : List Image) (labels : Labels)
    (himg : images.length = 1) (hlab : labels.length = 1)
    (hperm : rnd.permutation_order = [0]) :
    (cutmix_call rate label_smoothing rnd images labels).1
      = [cutmix_single_image_warning]
    ∧ is_error (cutmix_call rate label_smoothing rnd images labels).2
      = false := by
  obtain ⟨img, himg'⟩ := List.length_eq_one.mp himg
  obtain ⟨lab, hlab'⟩ := List.length_eq_one.mp hlab
  subst himg'
  subst hlab'
  constructor
  · simp [cutmix_call]
  · simp only [cutmix_call]
    by_cases hr : rnd.augment_draw < rate
    · have hg1 : tf_gather [img] [0] = Except.ok [img] := rfl
      have hg2 : tf_gather [lab] [0] = Except.ok [lab] := rfl
      simp only [hr, if_true, cutmix, hperm, hg1, update_labels, hg2]
      rfl
    · simp only [hr, if_false]
      rfl

theorem cutmix_call_single_image_witness :
    ([[[[(0 : ℚ)]]]] : List Image).length = 1
    ∧ ([[(1 : ℚ)]] : Labels).length = 1
    ∧ (CutMixRand.mk (1/2) [0] (fun _ => 0) (fun _ => 0)
        (fun _ => 0)).permutation_order = [0]
    ∧ ((cutmix_call 1 0
          (CutMixRand.mk (1/2) [0] (fun _ => 0) (fun _ => 0) (fun _ => 0))
          [[[[(0 : ℚ)]]]] [[(1 : ℚ)]]).1 = [cutmix_single_image_warning]
        ∧ is_error (cutmix_call 1 0
            (CutMixRand.mk (1/2) [0] (fun _ => 0) (fun _ => 0) (fun _ => 0))
            [[[[(0 : ℚ)]]]] [[(1 : ℚ)]]).2 = false) :=
  ⟨rfl, rfl, rfl,
    cutmix_call_single_image_warns_and_returns 1 0 _ _ _ rfl rfl rfl⟩

theorem ground_truth_counted_once_witness :
    0 < (coco_init (some [1/2]) [1] 0 1 100).1.category_ids.length
    ∧ ((update_counters (coco_init (some [1/2]) [1] 0 1 100).1 (fun _ _ => 0)
          [] [] zero_state).ground_truth_boxes 0
        = zero_state.ground_truth_boxes 0
          + (((([] : List (List Box)).zip
              (([] : List (List Box)).map sort_bboxes)).map (fun pr =>
              ((img_cat_ground_truths (coco_init (some [1/2]) [1] 0 1 100).1
                pr.1 0).length : ℚ))).sum)
      ∧ ∀ ts : List ℚ,
        (update_counters
            { (coco_init (some [1/2]) [1] 0 1 100).1 with iou_thresholds := ts }
            (fun _ _ => 0) [] [] zero_state).ground_truth_boxes 0
          = (update_counters (coco_init (some [1/2]) [1] 0 1 100).1
              (fun _ _ => 0) [] [] zero_state).ground_truth_boxes 0) :=
  ⟨by decide, ground_truth_counted_once_per_image_category
    (coco_init (some [1/2]) [1] 0 1 100).1 (fun _ _ => 0) [] [] zero_state 0
    (by decide)⟩

theorem tp_fp_increments_partition_witness :
    0 < (coco_init (some [1/2]) [1] 0 1 100).1.iou_thresholds.length
    ∧ (threshold_loop (coco_init (some [1/2]) [1] 0 1 100).1
        (img_cat_ground_truths (coco_init (some [1/2]) [1] 0 1 100).1 [] 0)
        (img_cat_detections (coco_init (some [1/2]) [1] 0 1 100).1 [] 0)
        (compute_ious_table (fun _ _ => 0)
          (img_cat_ground_truths (coco_init (some [1/2]) [1] 0 1 100).1 [] 0)
          (img_cat_detections (coco_init (some [1/2]) [1] 0 1 100).1 [] 0))
        0 (zero_mat, zero_mat)).1 0 0
      + (threshold_loop (coco_init (some [1/2]) [1] 0 1 100).1
          (img_cat_ground_truths (coco_init (some [1/2]) [1] 0 1 100).1 [] 0)
          (img_cat_detections (coco_init (some [1/2]) [1] 0 1 100).1 [] 0)
          (compute_ious_table (fun _ _ => 0)
            (img_cat_ground_truths (coco_init (some [1/2]) [1] 0 1 100).1 [] 0)
            (img_cat_detections (coco_init (some [1/2]) [1] 0 1 100).1 [] 0))
          0 (zero_mat, zero_mat)).2 0 0
      = zero_mat 0 0 + zero_mat 0 0
        + ((img_cat_detections (coco_init (some [1/2]) [1] 0 1 100).1
            [] 0).length : ℚ) :=
  ⟨by decide, tp_fp_increments_partition_detections
    (coco_init (some [1/2]) [1] 0 1 100).1 (fun _ _ => 0) [] [] 0 0
    zero_mat zero_mat (by decide)⟩

theorem max_detections_cap_witness :
    0 < (coco_init (some [1/2]) [1] 0 1 100).1.iou_thresholds.length
    ∧ (img_cat_detections (coco_init (some [1/2]) [1] 0 1 100).1 [] 0
        = (cat_filtered_preds (coco_init (some [1/2]) [1] 0 1 100).1
            [] 0).take (coco_init (some [1/2]) [1] 0 1 100).1.max_detections
      ∧ (threshold_loop (coco_init (some [1/2]) [1] 0 1 100).1 []
          (img_cat_detections (coco_init (some [1/2]) [1] 0 1 100).1 [] 0)
          (compute_ious_table (fun _ _ => 0) []
            (img_cat_detections (coco_init (some [1/2]) [1] 0 1 100).1 [] 0))
          0 (zero_mat, zero_mat)).1 0 0
        + (threshold_loop (coco_init (some [1/2]) [1] 0 1 100).1 []
            (img_cat_detections (coco_init (some [1/2]) [1] 0 1 100).1 [] 0)
            (compute_ious_table (fun _ _ => 0) []
              (img_cat_detections (coco_init (some [1/2]) [1] 0 1 100).1 [] 0))
            0 (zero_mat, zero_mat)).2 0 0
        = zero_mat 0 0 + zero_mat 0 0
          + (((cat_filtered_preds (coco_init (some [1/2]) [1] 0 1 100).1
              [] 0).take
              (coco_init (some [1/2]) [1] 0 1 100).1.max_detections).length : ℚ)
      ∧ (match_boxes ([] : List Box).length
          (img_cat_detections (coco_init (some [1/2]) [1] 0 1 100).1
            [] 0).length
          ((coco_init (some [1/2]) [1] 0 1 100).1.iou_thresholds.getD 0 0)
          (compute_ious_table (fun _ _ => 0) []
            (img_cat_detections (coco_init (some [1/2]) [1] 0 1 100).1
              [] 0))).length
        = ((cat_filtered_preds (coco_init (some [1/2]) [1] 0 1 100).1
            [] 0).take
            (coco_init (some [1/2]) [1] 0 1 100).1.max_detections).length) :=
  ⟨by decide, max_detections_cap_excess_never_counted
    (coco_init (some [1/2]) [1] 0 1 100).1 (fun _ _ => 0) [] [] 0 0
    zero_mat zero_mat (by decide)⟩

theorem update_state_additive_witness :
    ([([] : List Box)] : List (List Box)).length
      = ([([] : List Box)] : List (List Box)).length
    ∧ update_state (coco_init (some [1/2]) [1] 0 1 100).1 (fun _ _ => 0)
        ([[]] ++ []) ([[]] ++ []) none zero_state
      = (update_state (coco_init (some [1/2]) [1] 0 1 100).1 (fun _ _ => 0)
          [[]] [[]] none zero_state).bind
          (update_state (coco_init (some [1/2]) [1] 0 1 100).1 (fun _ _ => 0)
            [] [] none) :=
  ⟨rfl, update_state_additive (coco_init (some [1/2]) [1] 0 1 100).1
    (fun _ _ => 0) [[]] [[]] [] [] zero_state rfl⟩
